import Mathlib

/-!
# Verification of the e-commerce SQS demo pipeline

Shallow embedding of the event-driven order-processing pipeline:
the generic consumer runtime (`base-consumer.ts`), the inventory stage
(`inventory-service.ts`), the notification stage (`notification-service.ts`),
the order producer (`order-service.ts`), the payment stage
(`payment-service.ts`) and the dead-letter monitor (`dlq-handler.ts`).

Modelling conventions:
* JavaScript `Set<string>` / `Map<string, _>` become association lists kept in
  insertion order, which is exactly the iteration order of JS sets/maps.
* Monetary amounts and quantities (JS `number`) are modelled as `ℚ` resp. `ℤ`
  where subtraction matters; times in milliseconds as `ℕ`.
* Promises/exceptions become explicit outcome values; a handler invocation is
  abstracted by its outcome (ok / throw / timeout), and the effects the runtime
  performs (delete, record key, return value) are tracked in a result record.
* External library calls (`JSON.parse`, the broker client) are parameters of
  the model, never reimplemented.
-/

namespace EcommerceSqs

/-! ## Consumer runtime (`src/services/base-consumer.ts`) -/

/-- Event as seen by the generic runtime: only the fields the base class
reads. A missing `eventId`/`correlationId` (JS `undefined`, falsy) is
modelled by the empty string, matching the `|| ''` / `|| 'unknown'`
defaults in the source. -/
structure ConsumedEvent where
  eventId : String
  correlationId : String
  deriving Repr, DecidableEq

/-- State owned by one `BaseConsumer` instance: the in-memory idempotency
set `processedMessages`, kept in insertion order (oldest first). -/
structure ConsumerState where
  processed : List String
  deriving Repr, DecidableEq

/-- `private readonly maxProcessedMessages = 10000`. -/
def maxProcessedMessages : Nat := 10000

/-- `Set.add`: inserting an element already present leaves the set (and its
insertion order) unchanged; a new element goes to the end. -/
def setAdd (s : List String) (k : String) : List String :=
  if k ∈ s then s else s ++ [k]

/-- `getIdempotencyKey` (base default): `(event as any).eventId || ''`. -/
def getIdempotencyKey (ev : ConsumedEvent) : String :=
  ev.eventId

/-- `isAlreadyProcessed`: `if (!key) return false;` then membership in
`processedMessages`. -/
def isAlreadyProcessed (s : ConsumerState) (key : String) : Bool :=
  if key = "" then false else decide (key ∈ s.processed)

/-- `markAsProcessed`: `if (!key) return;` then `processedMessages.add(key)`
and eviction of the oldest-inserted entry when the set exceeds
`maxProcessedMessages`. -/
def markAsProcessed (s : ConsumerState) (key : String) : ConsumerState :=
  if key = "" then s
  else
    let p := setAdd s.processed key
    if p.length > maxProcessedMessages then ⟨p.drop 1⟩ else ⟨p⟩

/-- Outcome of racing `processMessage(event, …)` against the per-message
timeout: it resolves, rejects, or the timeout fires first. -/
inductive HandlerOutcome
  | ok
  | err
  | timeout
  deriving Repr, DecidableEq

/-- Observable effects of one `handleMessage` call: the boolean it returns,
whether `deleteMessage` was called for the message, whether the business
handler (`processMessage`) was invoked, and the idempotency state left
behind. -/
structure HandleResult where
  returned : Bool
  deleted : Bool
  handlerInvoked : Bool
  state : ConsumerState
  deriving Repr, DecidableEq

/-- `handleMessage`: parse the body (`none` models a `JSON.parse` throw,
caught by the surrounding `try`), run the idempotency gate, then either
acknowledge the duplicate, or race the handler against the timeout and
acknowledge + record on success; any throw or timeout is caught, the
message is left undeleted and `false` is returned. -/
def handleMessage (s : ConsumerState) (parsed : Option ConsumedEvent)
    (outcome : HandlerOutcome) : HandleResult :=
  match parsed with
  | none => ⟨false, false, false, s⟩
  | some ev =>
    let key := getIdempotencyKey ev
    if isAlreadyProcessed s key then
      ⟨true, true, false, s⟩
    else
      match outcome with
      | .ok => ⟨true, true, true, markAsProcessed s key⟩
      | .err => ⟨false, false, true, s⟩
      | .timeout => ⟨false, false, true, s⟩

/-! ## Inventory stage (`src/services/inventory-service.ts`) -/

/-- `StockItem` from the simulated inventory store. Numbers are JS `number`s
used only at integral values, modelled by `ℤ` so that real subtraction and
possible negative inputs are represented faithfully. -/
structure StockItem where
  productId : String
  sku : String
  available : ℤ
  reserved : ℤ
  deriving Repr, DecidableEq

/-- One entry of `event.payload.items` in an inventory-reservation request. -/
structure ReqItem where
  productId : String
  sku : String
  quantity : ℤ
  deriving Repr, DecidableEq

/-- `Reservation` record stored by the inventory service (the timestamps
play no role in the verified claims and are omitted). -/
structure ReservationRecord where
  reservationId : String
  orderId : String
  items : List (String × ℤ)
  deriving Repr, DecidableEq

/-- State owned by one `InventoryService` instance: the `inventory` map and
the `reservations` map, both in insertion order. -/
structure InventoryState where
  inventory : List StockItem
  reservations : List ReservationRecord
  deriving Repr, DecidableEq

/-- `inventory.get(productId)`: first (and, starting from the initial data,
only) entry with the given product id. -/
def findStock (inv : List StockItem) (pid : String) : Option StockItem :=
  inv.find? (fun s => s.productId = pid)

/-- Mutation of the `StockItem` object held in the map: apply `f` to the
`reserved` field of the entry `inventory.get(pid)` returns; no entry, no
change. -/
def updateStock (inv : List StockItem) (pid : String) (f : ℤ → ℤ) :
    List StockItem :=
  match inv with
  | [] => []
  | s :: rest =>
    if s.productId = pid then { s with reserved := f s.reserved } :: rest
    else s :: updateStock rest pid f

/-- One row of the `itemResults` array built by the first pass of
`attemptReservation`. -/
structure ItemResult where
  productId : String
  sku : String
  quantity : ℤ
  reserved : Bool
  availableStock : ℤ
  deriving Repr, DecidableEq

/-- First pass of `attemptReservation` for one item: unknown product gives
`reserved: false, availableStock: 0`; otherwise `availableStock =
stock.available - stock.reserved` and `canReserve = availableStock >=
item.quantity`. -/
def checkItem (inv : List StockItem) (it : ReqItem) : ItemResult :=
  match findStock inv it.productId with
  | none => ⟨it.productId, it.sku, it.quantity, false, 0⟩
  | some s =>
    let availableStock := s.available - s.reserved
    ⟨it.productId, it.sku, it.quantity, decide (it.quantity ≤ availableStock),
      availableStock⟩

/-- Result of `attemptReservation` (the generated `reservationId` string is
not part of the model; the caller supplies one to `reserveOp`). -/
structure AttemptResult where
  success : Bool
  itemResults : List ItemResult
  inventory : List StockItem
  deriving Repr, DecidableEq

/-- `attemptReservation`: first pass checks every item against the current
stock (no mutation), and only if all items can be reserved does the second
pass add each requested quantity to the matching product's `reserved`. -/
def attemptReservation (inv : List StockItem) (items : List ReqItem) :
    AttemptResult :=
  let itemResults := items.map (checkItem inv)
  if itemResults.all (fun r => r.reserved) then
    ⟨true, itemResults,
      items.foldl (fun acc it => updateStock acc it.productId (· + it.quantity)) inv⟩
  else
    ⟨false, itemResults, inv⟩

/-- `reservations.set(id, rec)`: replace in place when the key exists,
append otherwise (JS `Map.set` semantics). -/
def reservationsSet (rs : List ReservationRecord) (rec : ReservationRecord) :
    List ReservationRecord :=
  if rs.any (fun r => r.reservationId = rec.reservationId) then
    rs.map (fun r => if r.reservationId = rec.reservationId then rec else r)
  else rs ++ [rec]

/-- The inventory part of `InventoryService.processMessage`: skip when a
reservation for the order already exists, otherwise run
`attemptReservation` and on success store the `Reservation` record (on
failure only a notification is emitted; the stock state is untouched). -/
def reserveOp (st : InventoryState) (rid orderId : String)
    (items : List ReqItem) : InventoryState :=
  if st.reservations.any (fun r => r.orderId = orderId) then st
  else
    let result := attemptReservation st.inventory items
    if result.success then
      { inventory := result.inventory
        reservations := reservationsSet st.reservations
          ⟨rid, orderId, items.map (fun i => (i.productId, i.quantity))⟩ }
    else
      { st with inventory := result.inventory }

/-- `releaseReservation`: unknown reservation id returns `false` with no
change; otherwise each item's quantity is subtracted from the matching
product's `reserved`, floored at zero, and the record is removed. -/
def releaseOp (st : InventoryState) (rid : String) : Bool × InventoryState :=
  match st.reservations.find? (fun r => r.reservationId = rid) with
  | none => (false, st)
  | some res =>
    let inv := res.items.foldl
      (fun acc pq => updateStock acc pq.1 (fun r => max 0 (r - pq.2)))
      st.inventory
    (true,
      { inventory := inv
        reservations := st.reservations.filter (fun r => ¬ r.reservationId = rid) })

/-- `initializeInventory`: the five sample products. -/
def initialInventory : List StockItem :=
  [ ⟨"PROD-001", "SKU-LAPTOP-001", 50, 0⟩,
    ⟨"PROD-002", "SKU-PHONE-001", 100, 0⟩,
    ⟨"PROD-003", "SKU-TABLET-001", 30, 0⟩,
    ⟨"PROD-004", "SKU-HEADPHONES-001", 200, 0⟩,
    ⟨"PROD-005", "SKU-CHARGER-001", 500, 0⟩ ]

/-- State of a freshly constructed `InventoryService`. -/
def initialInventoryState : InventoryState :=
  ⟨initialInventory, []⟩

/-- A sequential reserve/release operation against one service instance. -/
inductive InvOp
  | reserve (rid orderId : String) (items : List ReqItem)
  | release (rid : String)
  deriving Repr

/-- Apply one operation. -/
def invStep (st : InventoryState) : InvOp → InventoryState
  | .reserve rid orderId items => reserveOp st rid orderId items
  | .release rid => (releaseOp st rid).2

/-- Run a sequence of reserve/release operations from a state. -/
def invRun (st : InventoryState) (ops : List InvOp) : InventoryState :=
  ops.foldl invStep st

/-- The spec's stock invariant: `0 ≤ reserved ≤ available` for every
product. -/
def stockInvariant (inv : List StockItem) : Prop :=
  ∀ s ∈ inv, 0 ≤ s.reserved ∧ s.reserved ≤ s.available

instance (inv : List StockItem) : Decidable (stockInvariant inv) :=
  inferInstanceAs (Decidable (∀ s ∈ inv, _ ∧ _))

/-! ## Order producer (`src/services/order-service.ts`) -/

/-- One item of a `CreateOrderRequest` / `Order`. Quantities and prices are
JS `number`s, modelled as `ℚ`. -/
structure OrderItem where
  productId : String
  sku : String
  name : String
  quantity : ℚ
  unitPrice : ℚ
  deriving Repr, DecidableEq

/-- Shipping address. -/
structure ShippingAddress where
  street : String
  city : String
  state : String
  zipCode : String
  country : String
  deriving Repr, DecidableEq

/-- `CreateOrderRequest`. -/
structure CreateOrderRequest where
  customerId : String
  customerEmail : String
  items : List OrderItem
  shippingAddress : ShippingAddress
  paymentMethod : String
  deriving Repr, DecidableEq

/-- The `Order` object built by `createOrder` (the two identical ISO
timestamps are collapsed into one field). -/
structure Order where
  orderId : String
  customerId : String
  customerEmail : String
  items : List OrderItem
  totalAmount : ℚ
  currency : String
  shippingAddress : ShippingAddress
  status : String
  createdAt : String
  deriving Repr, DecidableEq

/-- Character class `[^\s@]` of the email regex: anything but `@` and JS
whitespace (the whitespace characters that can appear in our `Char`-level
model). -/
def emailCharOk (c : Char) : Bool :=
  ¬ (c = '@' ∨ c = ' ' ∨ c = '\t' ∨ c = '\n' ∨ c = '\r' ∨
     c = '\x0b' ∨ c = '\x0c')

/-- `isValidEmail`: the regex `/^[^\s@]+@[^\s@]+\.[^\s@]+$/`. A string
matches iff it splits at its (then unique) `@` into a nonempty local part of
`[^\s@]` characters and a domain part of `[^\s@]` characters containing a
`.` that is neither its first nor its last character. -/
def isValidEmail (s : String) : Bool :=
  let cs := s.toList
  let a := cs.takeWhile (fun c => ¬ c = '@')
  match cs.dropWhile (fun c => ¬ c = '@') with
  | [] => false
  | _ :: b =>
    ¬ a = [] && a.all emailCharOk && b.all emailCharOk &&
      ((b.drop 1).dropLast.contains '.')

/-- The per-item loop of `validateOrder`: first offending item yields the
thrown message. -/
def validateItems : List OrderItem → Option String
  | [] => none
  | i :: rest =>
    if i.quantity ≤ 0 then some ("Invalid quantity for product " ++ i.productId)
    else if i.unitPrice ≤ 0 then some ("Invalid price for product " ++ i.productId)
    else validateItems rest

/-- `validateOrder`: `some msg` models the thrown validation error. -/
def validateOrder (r : CreateOrderRequest) : Option String :=
  if r.customerId = "" then some "Customer ID is required"
  else if r.customerEmail = "" ∨ ¬ isValidEmail r.customerEmail then
    some "Valid email is required"
  else if r.items = [] then some "Order must have at least one item"
  else
    match validateItems r.items with
    | some msg => some msg
    | none =>
      if r.shippingAddress.street = "" ∨ r.shippingAddress.city = "" then
        some "Complete shipping address is required"
      else none

/-- Payload of a message sent to a queue by the pipeline. -/
inductive EmittedPayload
  | orderCreated (order : Order)
  | paymentRequested (orderId customerId : String) (amount : ℚ)
      (currency paymentMethod : String)
  | inventoryReserve (orderId : String) (items : List ReqItem)
  | notification (orderId customerId customerEmail notificationType : String)
  deriving Repr, DecidableEq

/-- A `sendMessage` call: destination queue, `EventType` /
`CorrelationId` message attributes and the event body's correlation id
(always set to the same value by every producer in the source), plus the
payload. -/
structure QueueMessage where
  queue : String
  eventType : String
  correlationId : String
  payload : EmittedPayload
  deriving Repr, DecidableEq

/-- Identifiers `createOrder` mints via `uuidv4()` before validating,
supplied as parameters to keep the model deterministic. -/
structure MintedIds where
  orderId : String
  correlationId : String
  timestamp : String
  deriving Repr, DecidableEq

/-- `createOrder`: validation runs before the first `sendMessage`; a thrown
validation error (`.error`) therefore sends nothing. On success the total
is `items.reduce((sum, item) => sum + item.unitPrice * item.quantity, 0)`
and three events are emitted — order-created, payment-requested and an
order-confirmation notification — all carrying the one minted
`correlationId`. -/
def createOrder (ids : MintedIds) (r : CreateOrderRequest) :
    Except String Order × List QueueMessage :=
  match validateOrder r with
  | some msg => (.error msg, [])
  | none =>
    let totalAmount := r.items.foldl (fun sum item => sum + item.unitPrice * item.quantity) 0
    let order : Order :=
      { orderId := ids.orderId
        customerId := r.customerId
        customerEmail := r.customerEmail
        items := r.items
        totalAmount := totalAmount
        currency := "USD"
        shippingAddress := r.shippingAddress
        status := "pending"
        createdAt := ids.timestamp }
    (.ok order,
      [ ⟨"orders", "ORDER_CREATED", ids.correlationId, .orderCreated order⟩,
        ⟨"payments", "PAYMENT_REQUESTED", ids.correlationId,
          .paymentRequested ids.orderId r.customerId totalAmount "USD" r.paymentMethod⟩,
        ⟨"notifications", "NOTIFICATION_REQUESTED", ids.correlationId,
          .notification ids.orderId r.customerId r.customerEmail "order_confirmation"⟩ ])

/-- The validation conditions as the spec states them, to compare with
`validateOrder`: non-empty customer id, simplified email format, at least
one item, strictly positive quantities and prices, street and city
present. -/
def validConditions (r : CreateOrderRequest) : Prop :=
  ¬ r.customerId = "" ∧ isValidEmail r.customerEmail = true ∧ ¬ r.items = [] ∧
    (∀ i ∈ r.items, 0 < i.quantity ∧ 0 < i.unitPrice) ∧
    ¬ r.shippingAddress.street = "" ∧ ¬ r.shippingAddress.city = ""

instance (r : CreateOrderRequest) : Decidable (validConditions r) :=
  inferInstanceAs (Decidable (_ ∧ _ ∧ _ ∧ _ ∧ _ ∧ _))

/-! ## Payment stage (`src/services/payment-service.ts`) -/

/-- `PaymentRequestEvent` as consumed by the payment service: envelope
fields it reads plus its payload (which carries no item list). -/
structure PaymentRequestEvent where
  eventId : String
  correlationId : String
  orderId : String
  customerId : String
  amount : ℚ
  currency : String
  paymentMethod : String
  deriving Repr, DecidableEq

/-- `processedPayments: Map<string, string>` — orderId to transactionId,
insertion order. -/
structure PaymentState where
  processedPayments : List (String × String)
  deriving Repr, DecidableEq

/-- `Map.get` on the processed-payments map. -/
def paymentLookup (st : PaymentState) (orderId : String) : Option String :=
  (st.processedPayments.find? (fun p => p.1 = orderId)).map (fun p => p.2)

/-- `Map.set` on the processed-payments map. -/
def paymentSet (st : PaymentState) (orderId txn : String) : PaymentState :=
  if st.processedPayments.any (fun p => p.1 = orderId) then
    ⟨st.processedPayments.map (fun p => if p.1 = orderId then (orderId, txn) else p)⟩
  else ⟨st.processedPayments ++ [(orderId, txn)]⟩

/-- Result of the simulated external `processPayment` call (random inside
the source; a parameter of the model). -/
inductive PayOutcome
  | success (txn : String)
  | failure (err : String)
  deriving Repr, DecidableEq

/-- `getCorrelationId` (base default, used by the runtime to compute the
`correlationId` argument of `processMessage`):
`(event as any).correlationId || 'unknown'`. -/
def runtimeCorrelationId (correlationId : String) : String :=
  if correlationId = "" then "unknown" else correlationId

/-- `PaymentService.processMessage`: duplicate orders are no-ops; on
success the transaction id is recorded and an
`INVENTORY_RESERVE_REQUESTED` event with an **empty** item list
(`items: []` in the source) plus a `payment_received` notification are
sent; on failure only a `payment_failed` notification is sent. -/
def paymentProcessMessage (st : PaymentState) (ev : PaymentRequestEvent)
    (correlationId : String) (outcome : PayOutcome) :
    PaymentState × List QueueMessage :=
  if st.processedPayments.any (fun p => p.1 = ev.orderId) then (st, [])
  else
    match outcome with
    | .success txn =>
      (paymentSet st ev.orderId txn,
        [ ⟨"inventory", "INVENTORY_RESERVE_REQUESTED", correlationId,
            .inventoryReserve ev.orderId []⟩,
          ⟨"notifications", "NOTIFICATION_REQUESTED", correlationId,
            .notification ev.orderId ev.customerId "" "payment_received"⟩ ])
    | .failure _ =>
      (st,
        [ ⟨"notifications", "NOTIFICATION_REQUESTED", correlationId,
            .notification ev.orderId ev.customerId "" "payment_failed"⟩ ])

/-! ## Notification stage (`src/services/notification-service.ts`) -/

/-- Rate-limit record per customer: `{ count, resetAt }`; times are epoch
milliseconds. -/
structure RLRecord where
  count : Nat
  resetAt : Nat
  deriving Repr, DecidableEq

/-- State of one `NotificationService` instance: the `(orderId, type)`
projection of `sentNotifications` (the only fields the logic reads) and the
`customerNotificationCount` map. -/
structure NotifState where
  sent : List (String × String)
  rateLimit : List (String × RLRecord)
  deriving Repr, DecidableEq

/-- `MAX_NOTIFICATIONS_PER_HOUR = 10`. -/
def MAX_NOTIFICATIONS_PER_HOUR : Nat := 10

/-- One hour in milliseconds (`60 * 60 * 1000`). -/
def HOUR_MS : Nat := 3600000

/-- Lookup in the `customerNotificationCount` map. -/
def rlLookup (m : List (String × RLRecord)) (c : String) : Option RLRecord :=
  (m.find? (fun p => p.1 = c)).map (fun p => p.2)

/-- `Map.set` on the rate-limit map (replace in place, else append). -/
def rlSet (m : List (String × RLRecord)) (c : String) (r : RLRecord) :
    List (String × RLRecord) :=
  if m.any (fun p => p.1 = c) then
    m.map (fun p => if p.1 = c then (c, r) else p)
  else m ++ [(c, r)]

/-- `Map.delete` on the rate-limit map. -/
def rlDelete (m : List (String × RLRecord)) (c : String) :
    List (String × RLRecord) :=
  m.filter (fun p => ¬ p.1 = c)

/-- `checkRateLimit`: no record admits; an expired window (`now > resetAt`)
deletes the record and admits; otherwise admits iff `count <
MAX_NOTIFICATIONS_PER_HOUR`. Returns the (possibly pruned) map alongside. -/
def checkRateLimit (m : List (String × RLRecord)) (now : Nat) (c : String) :
    Bool × List (String × RLRecord) :=
  match rlLookup m c with
  | none => (true, m)
  | some r =>
    if r.resetAt < now then (true, rlDelete m c)
    else (decide (r.count < MAX_NOTIFICATIONS_PER_HOUR), m)

/-- `incrementRateLimit`: start a fresh one-hour window at count 1 when
there is no live record, else `count++`. -/
def incrementRateLimit (m : List (String × RLRecord)) (now : Nat) (c : String) :
    List (String × RLRecord) :=
  match rlLookup m c with
  | none => rlSet m c ⟨1, now + HOUR_MS⟩
  | some r =>
    if r.resetAt < now then rlSet m c ⟨1, now + HOUR_MS⟩
    else rlSet m c ⟨r.count + 1, r.resetAt⟩

/-- The keys of `EMAIL_TEMPLATES`. -/
def knownNotificationTypes : List String :=
  ["order_confirmation", "payment_received", "payment_failed",
   "order_shipped", "order_cancelled"]

/-- Payload fields of a `NotificationEvent` that the service logic reads. -/
structure NotifPayload where
  orderId : String
  customerId : String
  customerEmail : String
  notificationType : String
  deriving Repr, DecidableEq

/-- How one `NotificationService.processMessage` call ended (it returns
normally in every case — nothing here throws). -/
inductive NotifStatus
  | sent
  | rate_limited
  | duplicate
  | invalid_type
  deriving Repr, DecidableEq

/-- `NotificationService.processMessage`: rate-limit check first (a
rate-limited notification is silently dropped), then deduplication on
`(orderId, notificationType)`, then template lookup; a successful send
appends to the history and increments the rate-limit counter. -/
def notifProcessMessage (st : NotifState) (now : Nat) (p : NotifPayload) :
    NotifStatus × NotifState :=
  let check := checkRateLimit st.rateLimit now p.customerId
  if ¬ check.1 then (.rate_limited, st)
  else
    let st1 : NotifState := { st with rateLimit := check.2 }
    if st1.sent.any (fun n => n.1 = p.orderId && n.2 = p.notificationType) then
      (.duplicate, st1)
    else if ¬ p.notificationType ∈ knownNotificationTypes then
      (.invalid_type, st1)
    else
      (.sent,
        { sent := st1.sent ++ [(p.orderId, p.notificationType)]
          rateLimit := incrementRateLimit st1.rateLimit now p.customerId })

/-- Run a timed sequence of notification events, collecting statuses. -/
def notifRun (st : NotifState) : List (Nat × NotifPayload) →
    NotifState × List NotifStatus
  | [] => (st, [])
  | (now, p) :: rest =>
    let r := notifProcessMessage st now p
    let rec' := notifRun r.2 rest
    (rec'.1, r.1 :: rec'.2)

/-! ## Dead-letter monitor (`src/services/dlq-handler.ts`) -/

/-- `FailedMessage` record stored by the monitor. -/
structure FailedMessage where
  messageId : String
  receiptHandle : String
  queueName : String
  body : String
  approximateReceiveCount : Nat
  deriving Repr, DecidableEq

/-- The part of a parsed event envelope that the monitor reads. -/
structure ParsedEnvelope where
  type : String
  correlationId : String
  deriving Repr, DecidableEq

/-- `handleFailedMessage`: the record is pushed onto `failedMessages`
unconditionally — before and independently of whether `JSON.parse` of the
body succeeds — and the message is never deleted from the DLQ. The parse
function (JSON) is a parameter of the model and is only used for logging
here, so the stored list does not depend on it. -/
def handleFailedMessage (failedMessages : List FailedMessage)
    (msg : FailedMessage) : List FailedMessage :=
  failedMessages ++ [msg]

/-- Classification used by `getFailureSummary`: `JSON.parse(msg.body).type`,
or `'INVALID'` when the body does not parse. -/
def classifyBody (parse : String → Option ParsedEnvelope) (body : String) :
    String :=
  match parse body with
  | some e => e.type
  | none => "INVALID"

/-- `(byEventType[k] || 0) + 1` on an association list. -/
def bumpCount (m : List (String × Nat)) (k : String) : List (String × Nat) :=
  if m.any (fun p => p.1 = k) then
    m.map (fun p => if p.1 = k then (p.1, p.2 + 1) else p)
  else m ++ [(k, 1)]

/-- `record[k] || 0`. -/
def countLookup (m : List (String × Nat)) (k : String) : Nat :=
  ((m.find? (fun p => p.1 = k)).map (fun p => p.2)).getD 0

/-- The failure summary returned by `getFailureSummary`. -/
structure FailureSummary where
  total : Nat
  byQueue : List (String × Nat)
  byEventType : List (String × Nat)
  deriving Repr, DecidableEq

/-- `getFailureSummary`: fold over the recorded messages bumping the
per-queue and per-event-type counters; unparseable bodies count as
`'INVALID'`. -/
def getFailureSummary (parse : String → Option ParsedEnvelope)
    (failedMessages : List FailedMessage) : FailureSummary :=
  let acc := failedMessages.foldl
    (fun (acc : List (String × Nat) × List (String × Nat)) msg =>
      (bumpCount acc.1 msg.queueName,
       bumpCount acc.2 (classifyBody parse msg.body)))
    ([], [])
  ⟨failedMessages.length, acc.1, acc.2⟩

/-! ## Derived definitions and sample data used by the verification -/

/-- An item is insufficient when its product is unknown or its quantity
exceeds `available - reserved`. -/
def itemInsufficient (inv : List StockItem) (it : ReqItem) : Bool :=
  match findStock inv it.productId with
  | none => true
  | some s => decide (s.available - s.reserved < it.quantity)

/-- The inductive state invariant for C4: the stock invariant plus
nonnegative quantities in every stored reservation (needed because a
release replays those quantities). -/
def invStateOk (st : InventoryState) : Prop :=
  stockInvariant st.inventory ∧
  ∀ res ∈ st.reservations, ∀ pq ∈ res.items, 0 ≤ pq.2

/-- Well-formedness of one operation, as forced by the counterexample: a
reserve request names each product at most once and asks nonnegative
quantities; releases are unrestricted. -/
def goodOp : InvOp → Bool
  | .reserve _ _ items =>
      decide ((items.map (fun i => i.productId)).Nodup) &&
        items.all (fun it => decide (0 ≤ it.quantity))
  | .release _ => true

/-- Identifiers minted for the sample order. -/
def sampleIds : MintedIds :=
  ⟨"ORD-1", "corr-1", "2025-01-01T00:00:00.000Z"⟩

/-- The spec's total-computation scenario: one item at 2499.99 and two at
249.99. -/
def sampleRequest : CreateOrderRequest :=
  { customerId := "CUST-1"
    customerEmail := "jane@example.com"
    items := [⟨"PROD-001", "SKU-LAPTOP-001", "Laptop", 1, 2499.99⟩,
              ⟨"PROD-004", "SKU-HEADPHONES-001", "Headphones", 2, 249.99⟩]
    shippingAddress := ⟨"1 Main St", "Springfield", "IL", "62701", "US"⟩
    paymentMethod := "credit_card" }

/-- The order `createOrder` builds from the sample request. -/
def sampleOrder : Order :=
  { orderId := "ORD-1"
    customerId := "CUST-1"
    customerEmail := "jane@example.com"
    items := sampleRequest.items
    totalAmount := 2999.97
    currency := "USD"
    shippingAddress := sampleRequest.shippingAddress
    status := "pending"
    createdAt := "2025-01-01T00:00:00.000Z" }

/-- A request with an empty customer id (and no items). -/
def invalidRequest : CreateOrderRequest :=
  { customerId := ""
    customerEmail := "a@b.com"
    items := []
    shippingAddress := ⟨"1 Main St", "Springfield", "IL", "62701", "US"⟩
    paymentMethod := "credit_card" }

/-- The payment event emitted by `createOrder` for the sample order. -/
def samplePaymentEvent : PaymentRequestEvent :=
  ⟨"EVT-2", "corr-1", "ORD-1", "CUST-1", 2999.97, "USD", "credit_card"⟩

/-- The deduplication and template guards of one notification event. -/
def notifAdmissible (st : NotifState) (p : NotifPayload) : Prop :=
  st.sent.any (fun n => n.1 = p.orderId && n.2 = p.notificationType) = false ∧
  p.notificationType ∈ knownNotificationTypes

instance (st : NotifState) (p : NotifPayload) :
    Decidable (notifAdmissible st p) :=
  inferInstanceAs (Decidable (_ ∧ _))

/-- Eleven distinct notifications for one customer inside one hour,
followed by one more after the window has elapsed. -/
def rateLimitScenario : List (Nat × NotifPayload) :=
  (List.range 11).map
    (fun i => (1000 + i, ⟨"ORD-" ++ toString i, "CUST-9", "", "payment_received"⟩))
  ++ [(1000 + HOUR_MS + 1, ⟨"ORD-11", "CUST-9", "", "payment_received"⟩)]

/-- A parse function failing on everything except the body
`"valid-body"`. -/
def sampleParse : String → Option ParsedEnvelope :=
  fun s => if s = "valid-body" then some ⟨"ORDER_CREATED", "corr-1"⟩ else none

/-- Two recorded DLQ messages: one parseable, one with a garbage body. -/
def sampleFailedMessages : List FailedMessage :=
  [ ⟨"MSG-1", "rh-1", "orders-dlq", "valid-body", 3⟩,
    ⟨"MSG-2", "rh-2", "payments-dlq", "garbage", 5⟩ ]

/-! ## Helper lemmas -/

/-- A key that passed the idempotency gate is in the set after
`markAsProcessed`, even when the eviction bound triggers (the evicted entry
is the oldest, never the one just added). -/
theorem mem_markAsProcessed (s : ConsumerState) (key : String)
    (hk : ¬ key = "") (hmem : ¬ key ∈ s.processed) :
    key ∈ (markAsProcessed s key).processed := by
  unfold markAsProcessed setAdd
  simp only [hk, if_false, hmem, if_false]
  split
  · rename_i hlen
    cases h : s.processed with
    | nil => rw [h] at hlen; simp [maxProcessedMessages] at hlen
    | cons a t => simp
  · simp

/-- `markAsProcessed` never inserts the empty key. -/
theorem markAsProcessed_empty (s : ConsumerState) :
    markAsProcessed s "" = s := by
  simp [markAsProcessed]

/-- The idempotency gate never fires on the empty key. -/
theorem isAlreadyProcessed_empty (s : ConsumerState) :
    isAlreadyProcessed s "" = false := by
  simp [isAlreadyProcessed]

/-! ## Claim C1 — acknowledgment policy of `handleMessage` -/

/-- C1, counterexample: a message whose event has no `eventId` (idempotency
key `""`) is processed successfully and deleted, yet its key is **not**
recorded in the processed set — `markAsProcessed` drops empty keys, so the
claim's success branch ("message deleted + key recorded") fails as stated. -/
theorem handleMessage_ack_policy_cex :
    ((handleMessage ⟨[]⟩ (some ⟨"", "corr-1"⟩) .ok).handlerInvoked = true) ∧
    ((handleMessage ⟨[]⟩ (some ⟨"", "corr-1"⟩) .ok).deleted = true) ∧
    ¬ getIdempotencyKey ⟨"", "corr-1"⟩ ∈
        (handleMessage ⟨[]⟩ (some ⟨"", "corr-1"⟩) .ok).state.processed := by
  decide

/-- C1 (amended): acknowledgment policy of `handleMessage`. A successful
handler invocation deletes the message and — whenever the computed
idempotency key is non-empty — records the key in the processed set; a
duplicate is deleted without invoking the handler; a thrown error or a
timeout leaves the message undeleted, leaves the idempotency state
untouched, and makes `handleMessage` return `false` instead of
re-throwing. -/
theorem handleMessage_ack_policy (s : ConsumerState) (ev : ConsumedEvent)
    (o : HandlerOutcome) :
    (isAlreadyProcessed s (getIdempotencyKey ev) = true →
      (handleMessage s (some ev) o).deleted = true ∧
      (handleMessage s (some ev) o).handlerInvoked = false ∧
      (handleMessage s (some ev) o).returned = true) ∧
    (isAlreadyProcessed s (getIdempotencyKey ev) = false → o = .ok →
      (handleMessage s (some ev) o).deleted = true ∧
      (handleMessage s (some ev) o).returned = true ∧
      (¬ getIdempotencyKey ev = "" →
        getIdempotencyKey ev ∈ (handleMessage s (some ev) o).state.processed)) ∧
    (isAlreadyProcessed s (getIdempotencyKey ev) = false →
      (o = .err ∨ o = .timeout) →
      (handleMessage s (some ev) o).deleted = false ∧
      (handleMessage s (some ev) o).returned = false ∧
      (handleMessage s (some ev) o).state = s) := by
  refine ⟨fun hdup => ?_, fun hdup hok => ?_, fun hdup hfail => ?_⟩
  · simp [handleMessage, hdup]
  · subst hok
    refine ⟨?_, ?_, fun hk => ?_⟩
    · simp [handleMessage, hdup]
    · simp [handleMessage, hdup]
    · have hmem : ¬ getIdempotencyKey ev ∈ s.processed := by
        intro hmem
        simp [isAlreadyProcessed, hk, hmem] at hdup
      simpa [handleMessage, hdup] using mem_markAsProcessed s _ hk hmem
  · rcases hfail with h | h <;> subst h <;> simp [handleMessage, hdup]

/-- Witness for C1's theorem at a concrete input (non-duplicate event,
successful handler). -/
theorem handleMessage_ack_policy_witness :
    isAlreadyProcessed ⟨["OLD"]⟩ (getIdempotencyKey ⟨"EVT-1", "corr-1"⟩) = false ∧
    HandlerOutcome.ok = HandlerOutcome.ok ∧
    ¬ getIdempotencyKey (⟨"EVT-1", "corr-1"⟩ : ConsumedEvent) = "" ∧
    ((handleMessage ⟨["OLD"]⟩ (some ⟨"EVT-1", "corr-1"⟩) .ok).deleted = true ∧
      (handleMessage ⟨["OLD"]⟩ (some ⟨"EVT-1", "corr-1"⟩) .ok).returned = true ∧
      (¬ getIdempotencyKey (⟨"EVT-1", "corr-1"⟩ : ConsumedEvent) = "" →
        getIdempotencyKey (⟨"EVT-1", "corr-1"⟩ : ConsumedEvent) ∈
          (handleMessage ⟨["OLD"]⟩ (some ⟨"EVT-1", "corr-1"⟩) .ok).state.processed)) :=
  ⟨by decide, rfl, by decide,
    (handleMessage_ack_policy ⟨["OLD"]⟩ ⟨"EVT-1", "corr-1"⟩ .ok).2.1 (by decide) rfl⟩

/-! ## Claim C2 — idempotent double delivery -/

/-- C2, counterexample: delivering the same event twice can invoke the
business handler twice. (a) An event with no `eventId` (empty idempotency
key) is never recorded, so both successful deliveries invoke the handler;
(b) an event whose first handler invocation throws is not recorded either,
so the redelivery invokes the handler a second time. -/
theorem double_delivery_cex :
    ((handleMessage ⟨[]⟩ (some ⟨"", "corr-1"⟩) .ok).handlerInvoked = true ∧
      (handleMessage (handleMessage ⟨[]⟩ (some ⟨"", "corr-1"⟩) .ok).state
        (some ⟨"", "corr-1"⟩) .ok).handlerInvoked = true) ∧
    ((handleMessage ⟨[]⟩ (some ⟨"EVT-7", "corr-1"⟩) .err).handlerInvoked = true ∧
      (handleMessage (handleMessage ⟨[]⟩ (some ⟨"EVT-7", "corr-1"⟩) .err).state
        (some ⟨"EVT-7", "corr-1"⟩) .ok).handlerInvoked = true) := by
  decide

/-- C2 (amended): for every event with a non-empty idempotency key whose
first delivery completes the handler successfully, a second sequential
delivery to the same consumer instance is flagged as a duplicate: it is
acknowledged (deleted) without invoking `processMessage` and leaves the
idempotency state unchanged — so the business handler runs at most once
across the two deliveries. -/
theorem double_delivery_idempotent (s : ConsumerState) (ev : ConsumedEvent)
    (o : HandlerOutcome) (hk : ¬ ev.eventId = "") :
    (handleMessage (handleMessage s (some ev) .ok).state (some ev) o).handlerInvoked
        = false ∧
    (handleMessage (handleMessage s (some ev) .ok).state (some ev) o).deleted
        = true ∧
    (handleMessage (handleMessage s (some ev) .ok).state (some ev) o).returned
        = true ∧
    (handleMessage (handleMessage s (some ev) .ok).state (some ev) o).state
        = (handleMessage s (some ev) .ok).state := by
  have hkey : getIdempotencyKey ev = ev.eventId := rfl
  by_cases hmem : ev.eventId ∈ s.processed
  · have hdup : isAlreadyProcessed s (getIdempotencyKey ev) = true := by
      simp [isAlreadyProcessed, hkey, hk, hmem]
    simp [handleMessage, hdup]
  · have hdup : isAlreadyProcessed s (getIdempotencyKey ev) = false := by
      simp [isAlreadyProcessed, hkey, hk, hmem]
    have hrec : ev.eventId ∈ (markAsProcessed s ev.eventId).processed :=
      mem_markAsProcessed s ev.eventId hk hmem
    have hdup2 : isAlreadyProcessed (markAsProcessed s (getIdempotencyKey ev))
        (getIdempotencyKey ev) = true := by
      rw [hkey]
      simp [isAlreadyProcessed, hk, hrec]
    simp [handleMessage, hdup, hdup2]

/-- Witness for C2's theorem: a concrete event with key `"EVT-1"` delivered
twice; the second delivery skips the handler and deletes the message. -/
theorem double_delivery_idempotent_witness :
    ¬ ("EVT-1" : String) = "" ∧
    (handleMessage (handleMessage ⟨[]⟩ (some ⟨"EVT-1", "corr-1"⟩) .ok).state
        (some ⟨"EVT-1", "corr-1"⟩) .ok).handlerInvoked = false ∧
    (handleMessage (handleMessage ⟨[]⟩ (some ⟨"EVT-1", "corr-1"⟩) .ok).state
        (some ⟨"EVT-1", "corr-1"⟩) .ok).deleted = true ∧
    (handleMessage (handleMessage ⟨[]⟩ (some ⟨"EVT-1", "corr-1"⟩) .ok).state
        (some ⟨"EVT-1", "corr-1"⟩) .ok).returned = true ∧
    (handleMessage (handleMessage ⟨[]⟩ (some ⟨"EVT-1", "corr-1"⟩) .ok).state
        (some ⟨"EVT-1", "corr-1"⟩) .ok).state
      = (handleMessage ⟨[]⟩ (some ⟨"EVT-1", "corr-1"⟩) .ok).state :=
  ⟨by decide, double_delivery_idempotent ⟨[]⟩ ⟨"EVT-1", "corr-1"⟩ .ok (by decide)⟩

/-! ## Claim C10 — events with an empty idempotency key -/

/-- C10: an event whose computed idempotency key is the empty string (the
base default when the event has no `eventId`) is never treated as a
duplicate and never recorded: `isAlreadyProcessed` returns `false`,
`markAsProcessed` leaves the processed set unchanged, and `handleMessage`
invokes the business handler on every delivery, leaving the idempotency
state exactly as it was. -/
theorem empty_key_never_deduplicated (s : ConsumerState) (ev : ConsumedEvent)
    (o : HandlerOutcome) (h : ev.eventId = "") :
    isAlreadyProcessed s (getIdempotencyKey ev) = false ∧
    markAsProcessed s (getIdempotencyKey ev) = s ∧
    (handleMessage s (some ev) o).handlerInvoked = true ∧
    (handleMessage s (some ev) o).state = s := by
  have hkey : getIdempotencyKey ev = "" := h
  refine ⟨by simp [hkey, isAlreadyProcessed], by simp [hkey, markAsProcessed], ?_, ?_⟩
  · cases o <;> simp [handleMessage, hkey, isAlreadyProcessed]
  · cases o <;> simp [handleMessage, hkey, isAlreadyProcessed, markAsProcessed]

/-- Witness for C10's theorem: an eventId-less event against a non-trivial
processed set, with a successful handler run. -/
theorem empty_key_never_deduplicated_witness :
    (⟨"", "corr-1"⟩ : ConsumedEvent).eventId = "" ∧
    (isAlreadyProcessed ⟨["EVT-1"]⟩ (getIdempotencyKey ⟨"", "corr-1"⟩) = false ∧
      markAsProcessed ⟨["EVT-1"]⟩ (getIdempotencyKey ⟨"", "corr-1"⟩) = ⟨["EVT-1"]⟩ ∧
      (handleMessage ⟨["EVT-1"]⟩ (some ⟨"", "corr-1"⟩) .ok).handlerInvoked = true ∧
      (handleMessage ⟨["EVT-1"]⟩ (some ⟨"", "corr-1"⟩) .ok).state = ⟨["EVT-1"]⟩) :=
  ⟨rfl, empty_key_never_deduplicated ⟨["EVT-1"]⟩ ⟨"", "corr-1"⟩ .ok rfl⟩

/-! ## Inventory lemmas -/

/-- An insufficient item fails the first-pass check. -/
theorem checkItem_reserved_false (inv : List StockItem) (it : ReqItem)
    (h : itemInsufficient inv it = true) :
    (checkItem inv it).reserved = false := by
  unfold itemInsufficient at h
  unfold checkItem
  cases hf : findStock inv it.productId with
  | none => rfl
  | some s =>
    rw [hf] at h
    simp only [decide_eq_true_eq] at h
    simp [decide_eq_false_iff_not]
    omega

/-- Updating a stock entry whose new `reserved` value stays within bounds
preserves the stock invariant. -/
theorem stockInvariant_updateStock (inv : List StockItem) (pid : String)
    (f : ℤ → ℤ) (hinv : stockInvariant inv)
    (hf : ∀ s, findStock inv pid = some s →
      0 ≤ f s.reserved ∧ f s.reserved ≤ s.available) :
    stockInvariant (updateStock inv pid f) := by
  induction inv with
  | nil => intro s hs; simp [updateStock] at hs
  | cons a rest ih =>
    by_cases ha : a.productId = pid
    · have hfind : findStock (a :: rest) pid = some a := by
        simp [findStock, List.find?_cons_of_pos, ha]
      intro s hs
      rw [updateStock] at hs
      rw [if_pos ha] at hs
      rcases List.mem_cons.mp hs with h | h
      · subst h
        have := hf a hfind
        simpa using this
      · exact hinv s (List.mem_cons_of_mem a h)
    · have hfind : findStock (a :: rest) pid = findStock rest pid := by
        simp [findStock, List.find?_cons_of_neg, ha]
      intro s hs
      rw [updateStock] at hs
      rw [if_neg ha] at hs
      rcases List.mem_cons.mp hs with h | h
      · rw [h]
        exact hinv a (List.mem_cons_self a rest)
      · exact ih (fun x hx => hinv x (List.mem_cons_of_mem a hx))
          (fun x hx => hf x (hfind ▸ hx)) s h

/-- Updating one product leaves lookups of other products unchanged. -/
theorem findStock_updateStock_ne (inv : List StockItem) (pid pid' : String)
    (f : ℤ → ℤ) (h : ¬ pid' = pid) :
    findStock (updateStock inv pid f) pid' = findStock inv pid' := by
  induction inv with
  | nil => rfl
  | cons a rest ih =>
    by_cases ha : a.productId = pid
    · rw [updateStock, if_pos ha]
      have h1 : ¬ ({ a with reserved := f a.reserved } : StockItem).productId = pid' := by
        simp [ha]; exact fun hc => h hc.symm
      have h2 : ¬ a.productId = pid' := by
        rw [ha]; exact fun hc => h hc.symm
      simp [findStock, List.find?_cons_of_neg, h1, h2]
    · rw [updateStock, if_neg ha]
      by_cases ha' : a.productId = pid'
      · simp [findStock, List.find?_cons_of_pos, ha']
      · simp only [findStock, List.find?_cons_of_neg, ha', decide_eq_true_eq,
          not_false_iff]
        exact ih

/-- The second pass of a fully-checked reservation keeps the stock
invariant, provided each product appears at most once in the request and
quantities are nonnegative. -/
theorem stockInvariant_reserveFold (items : List ReqItem) (inv : List StockItem)
    (hinv : stockInvariant inv)
    (hnodup : (items.map (fun i => i.productId)).Nodup)
    (hpos : ∀ it ∈ items, 0 ≤ it.quantity)
    (hcheck : ∀ it ∈ items, ∀ s, findStock inv it.productId = some s →
      it.quantity ≤ s.available - s.reserved) :
    stockInvariant (items.foldl
      (fun acc it => updateStock acc it.productId (· + it.quantity)) inv) := by
  induction items generalizing inv with
  | nil => simpa using hinv
  | cons it rest ih =>
    simp only [List.foldl_cons]
    have hq : 0 ≤ it.quantity := hpos it (List.mem_cons_self it rest)
    have hinv1 : stockInvariant (updateStock inv it.productId (· + it.quantity)) := by
      apply stockInvariant_updateStock inv it.productId _ hinv
      intro s hs
      have hmem : s ∈ inv := List.mem_of_find?_eq_some hs
      have hb := hinv s hmem
      have hc := hcheck it (List.mem_cons_self it rest) s hs
      constructor <;> omega
    have hnd : (∀ x ∈ rest, ¬ x.productId = it.productId) ∧
        (List.map (fun i => i.productId) rest).Nodup := by
      simpa using hnodup
    apply ih _ hinv1
    · exact hnd.2
    · exact fun x hx => hpos x (List.mem_cons_of_mem it hx)
    · intro x hx s hs
      have hne : ¬ x.productId = it.productId := hnd.1 x hx
      rw [findStock_updateStock_ne inv it.productId x.productId _ hne] at hs
      exact hcheck x (List.mem_cons_of_mem it hx) s hs

/-- Releasing any list of nonnegative quantities keeps the stock
invariant (the decrement is floored at zero and only shrinks `reserved`). -/
theorem stockInvariant_releaseFold (items : List (String × ℤ))
    (inv : List StockItem) (hinv : stockInvariant inv)
    (hpos : ∀ pq ∈ items, 0 ≤ pq.2) :
    stockInvariant (items.foldl
      (fun acc pq => updateStock acc pq.1 (fun r => max 0 (r - pq.2))) inv) := by
  induction items generalizing inv with
  | nil => simpa using hinv
  | cons pq rest ih =>
    simp only [List.foldl_cons]
    have hq : 0 ≤ pq.2 := hpos pq (List.mem_cons_self pq rest)
    apply ih _ ?_ (fun x hx => hpos x (List.mem_cons_of_mem pq hx))
    apply stockInvariant_updateStock inv pq.1 _ hinv
    intro s hs
    have hb := hinv s (List.mem_of_find?_eq_some hs)
    constructor
    · exact le_max_left 0 _
    · apply max_le (by omega) (by omega)

/-- `attemptReservation` succeeds exactly when the first pass clears every
item. -/
theorem attemptReservation_success_eq (inv : List StockItem)
    (items : List ReqItem) :
    (attemptReservation inv items).success
      = (items.map (checkItem inv)).all (fun r => r.reserved) := by
  unfold attemptReservation
  dsimp only
  split <;> simp_all

/-- On a failed first pass the inventory is returned unchanged. -/
theorem attemptReservation_inventory_of_fail (inv : List StockItem)
    (items : List ReqItem)
    (h : (items.map (checkItem inv)).all (fun r => r.reserved) = false) :
    (attemptReservation inv items).inventory = inv := by
  unfold attemptReservation
  rw [if_neg]
  simp [h]

/-- On a successful first pass the second pass folds the increments. -/
theorem attemptReservation_inventory_of_success (inv : List StockItem)
    (items : List ReqItem)
    (h : (items.map (checkItem inv)).all (fun r => r.reserved) = true) :
    (attemptReservation inv items).inventory
      = items.foldl (fun acc it => updateStock acc it.productId (· + it.quantity)) inv := by
  unfold attemptReservation
  rw [if_pos]
  simp [h]

/-! ## Claim C3 — all-or-nothing reservation -/

/-- C3: if any requested item's quantity exceeds its product's
`available - reserved` (or the product is unknown), `attemptReservation`
fails and returns the inventory unchanged — no partial holds on any
product. -/
theorem attemptReservation_all_or_nothing (inv : List StockItem)
    (items : List ReqItem)
    (h : ∃ it ∈ items, itemInsufficient inv it = true) :
    (attemptReservation inv items).success = false ∧
    (attemptReservation inv items).inventory = inv := by
  obtain ⟨it, hmem, hins⟩ := h
  have hall : (items.map (checkItem inv)).all (fun r => r.reserved) = false := by
    rw [Bool.eq_false_iff]
    intro hc
    have := List.all_eq_true.mp hc (checkItem inv it)
      (List.mem_map_of_mem (checkItem inv) hmem)
    rw [checkItem_reserved_false inv it hins] at this
    exact Bool.false_ne_true this
  refine ⟨?_, attemptReservation_inventory_of_fail inv items hall⟩
  rw [attemptReservation_success_eq, hall]

/-- Witness for C3's theorem: the spec scenario — `PROD-003`, requested 31
against `available = 30, reserved = 0`, fails entirely and leaves the whole
store (so in particular `PROD-003.reserved = 0`) unchanged. -/
theorem attemptReservation_all_or_nothing_witness :
    (∃ it ∈ [(⟨"PROD-003", "SKU-TABLET-001", 31⟩ : ReqItem)],
        itemInsufficient initialInventory it = true) ∧
    (attemptReservation initialInventory
        [(⟨"PROD-003", "SKU-TABLET-001", 31⟩ : ReqItem)]).success = false ∧
    (attemptReservation initialInventory
        [(⟨"PROD-003", "SKU-TABLET-001", 31⟩ : ReqItem)]).inventory
      = initialInventory :=
  ⟨by decide,
    attemptReservation_all_or_nothing initialInventory
      [⟨"PROD-003", "SKU-TABLET-001", 31⟩] (by decide)⟩

/-! ## Claim C4 — stock invariant under reserve/release sequences -/

/-- C4, counterexample: a single (sequential) reservation request that
lists the same product twice passes the first-pass check for each
occurrence separately and then reserves the sum, driving `reserved` to 60
against `available = 50` for `PROD-001` — the invariant
`0 ≤ reserved ≤ available` fails after a reserve/release sequence of
length one. -/
theorem reserve_release_invariant_cex :
    ¬ stockInvariant (invRun initialInventoryState
      [.reserve "RES-DUP" "ORD-1"
        [⟨"PROD-001", "SKU-LAPTOP-001", 30⟩,
         ⟨"PROD-001", "SKU-LAPTOP-001", 30⟩]]).inventory := by
  decide

/-- A record drawn from `reservationsSet rs rec` is an old record or the
new one. -/
theorem mem_reservationsSet (rs : List ReservationRecord)
    (rec r : ReservationRecord) (h : r ∈ reservationsSet rs rec) :
    r ∈ rs ∨ r = rec := by
  unfold reservationsSet at h
  split at h
  · obtain ⟨x, hx, hfx⟩ := List.mem_map.mp h
    by_cases hid : x.reservationId = rec.reservationId
    · right; rw [← hfx, if_pos hid]
    · left; rw [← hfx, if_neg hid]; exact hx
  · rcases List.mem_append.mp h with h | h
    · left; exact h
    · right; simpa using h

/-- One well-formed step preserves the state invariant. -/
theorem invStateOk_invStep (st : InventoryState) (op : InvOp)
    (hst : invStateOk st) (hop : goodOp op = true) :
    invStateOk (invStep st op) := by
  cases op with
  | reserve rid orderId items =>
    have hgood : (items.map (fun i => i.productId)).Nodup ∧
        ∀ it ∈ items, 0 ≤ it.quantity := by
      simp only [goodOp, Bool.and_eq_true, decide_eq_true_eq,
        List.all_eq_true] at hop
      exact ⟨hop.1, fun it hit => by simpa using hop.2 it hit⟩
    simp only [invStep, reserveOp]
    split
    · exact hst
    · by_cases hall :
        (items.map (checkItem st.inventory)).all (fun r => r.reserved) = true
      · have h1 : (attemptReservation st.inventory items).success = true := by
          rw [attemptReservation_success_eq]; exact hall
        rw [h1, if_pos rfl]
        constructor
        · rw [attemptReservation_inventory_of_success st.inventory items hall]
          apply stockInvariant_reserveFold items st.inventory hst.1 hgood.1 hgood.2
          intro it hit s hs
          have hres := List.all_eq_true.mp hall (checkItem st.inventory it)
            (List.mem_map_of_mem (checkItem st.inventory) hit)
          unfold checkItem at hres
          rw [hs] at hres
          simp only [decide_eq_true_eq] at hres
          omega
        · intro res hres pq hpq
          rcases mem_reservationsSet st.reservations _ res hres with h | h
          · exact hst.2 res h pq hpq
          · subst h
            simp only at hpq
            obtain ⟨i, hi, hip⟩ := List.mem_map.mp hpq
            rw [← hip]
            exact hgood.2 i hi
      · have hallf :
            (items.map (checkItem st.inventory)).all (fun r => r.reserved) = false := by
          rw [Bool.eq_false_iff]; exact hall
        have h1 : (attemptReservation st.inventory items).success = false := by
          rw [attemptReservation_success_eq]; exact hallf
        rw [h1]
        simp only [Bool.false_eq_true, if_false]
        refine ⟨?_, hst.2⟩
        rw [attemptReservation_inventory_of_fail st.inventory items hallf]
        exact hst.1
  | release rid =>
    simp only [invStep, releaseOp]
    cases hfind : st.reservations.find? (fun r => r.reservationId = rid) with
    | none => exact hst
    | some res =>
      constructor
      · exact stockInvariant_releaseFold res.items st.inventory hst.1
          (hst.2 res (List.mem_of_find?_eq_some hfind))
      · intro r hr pq hpq
        exact hst.2 r (List.mem_of_mem_filter hr) pq hpq

/-- C4 (amended): for every sequential sequence of reserve/release
operations from the initial stock state in which each reserve request
lists every product at most once with nonnegative quantities, every
product satisfies `0 ≤ reserved ≤ available` afterwards. -/
theorem reserve_release_invariant (ops : List InvOp)
    (hops : ∀ op ∈ ops, goodOp op = true) :
    stockInvariant (invRun initialInventoryState ops).inventory := by
  have main : ∀ (l : List InvOp) (st : InventoryState), invStateOk st →
      (∀ op ∈ l, goodOp op = true) → invStateOk (invRun st l) := by
    intro l
    induction l with
    | nil => intro st h _; simpa [invRun] using h
    | cons op rest ih =>
      intro st hst hl
      have h1 := invStateOk_invStep st op hst (hl op (List.mem_cons_self op rest))
      have h2 := ih (invStep st op) h1 (fun x hx => hl x (List.mem_cons_of_mem op hx))
      simpa [invRun] using h2
  refine (main ops initialInventoryState ⟨by decide, ?_⟩ hops).1
  intro res hres
  simp [initialInventoryState] at hres

/-- Witness for C4's theorem: a concrete reserve/release/reserve sequence
of well-formed operations keeps the invariant. -/
theorem reserve_release_invariant_witness :
    (∀ op ∈ ([.reserve "RES-1" "ORD-1"
        [⟨"PROD-001", "SKU-LAPTOP-001", 2⟩, ⟨"PROD-003", "SKU-TABLET-001", 1⟩],
      .release "RES-1",
      .reserve "RES-2" "ORD-2" [⟨"PROD-002", "SKU-PHONE-001", 5⟩]] : List InvOp),
      goodOp op = true) ∧
    stockInvariant (invRun initialInventoryState
      [.reserve "RES-1" "ORD-1"
        [⟨"PROD-001", "SKU-LAPTOP-001", 2⟩, ⟨"PROD-003", "SKU-TABLET-001", 1⟩],
       .release "RES-1",
       .reserve "RES-2" "ORD-2" [⟨"PROD-002", "SKU-PHONE-001", 5⟩]]).inventory :=
  ⟨by decide, reserve_release_invariant _ (by decide)⟩

/-! ## Order-producer lemmas and claims -/

/-- The `reduce` in `createOrder` computes the spec's
`Σ quantity · unitPrice`. -/
theorem totalAmount_foldl (l : List OrderItem) (a : ℚ) :
    l.foldl (fun sum item => sum + item.unitPrice * item.quantity) a
      = a + (l.map (fun i => i.quantity * i.unitPrice)).sum := by
  induction l generalizing a with
  | nil => simp
  | cons i t ih =>
    simp only [List.foldl_cons, List.map_cons, List.sum_cons, ih]
    ring

/-- When validation passes, `createOrder` returns the built order. -/
theorem createOrder_ok (ids : MintedIds) (r : CreateOrderRequest) (order : Order)
    (hval : validateOrder r = none)
    (hok : (createOrder ids r).1 = .ok order) :
    order.totalAmount
      = r.items.foldl (fun sum item => sum + item.unitPrice * item.quantity) 0 := by
  unfold createOrder at hok
  rw [hval] at hok
  simp only at hok
  have := Except.ok.inj hok
  rw [← this]

/-- The sample request passes validation. -/
theorem validateOrder_sampleRequest : validateOrder sampleRequest = none := by
  have h1 : ¬ ((1 : ℚ) ≤ 0) := by norm_num
  have h2 : ¬ ((2499.99 : ℚ) ≤ 0) := by norm_num
  have h3 : ¬ ((2 : ℚ) ≤ 0) := by norm_num
  have h4 : ¬ ((249.99 : ℚ) ≤ 0) := by norm_num
  have he : isValidEmail "jane@example.com" = true := by decide
  simp [validateOrder, sampleRequest, validateItems, he, h1, h2, h3, h4]

/-- Creating the sample order returns `sampleOrder` (total 2999.97). -/
theorem createOrder_sample_eq :
    (createOrder sampleIds sampleRequest).1 = .ok sampleOrder := by
  simp only [createOrder, validateOrder_sampleRequest]
  congr 1
  simp only [sampleOrder, sampleRequest, sampleIds, List.foldl_cons, List.foldl_nil]
  norm_num [Order.mk.injEq]

/-! ## Claim C5 — order total -/

/-- C5: every order `createOrder` returns for a non-empty item list with
positive quantities and prices has `totalAmount = Σ quantity · unitPrice`;
in particular the request with items (1 × 2499.99) and (2 × 249.99)
yields a total of 2999.97. -/
theorem createOrder_totalAmount :
    (∀ (ids : MintedIds) (r : CreateOrderRequest) (order : Order),
      ¬ r.items = [] →
      (∀ i ∈ r.items, 0 < i.quantity ∧ 0 < i.unitPrice) →
      (createOrder ids r).1 = .ok order →
      order.totalAmount = (r.items.map (fun i => i.quantity * i.unitPrice)).sum) ∧
    ((createOrder sampleIds sampleRequest).1.toOption.map Order.totalAmount
      = some (2999.97 : ℚ)) := by
  constructor
  · intro ids r order _ _ hok
    cases hval : validateOrder r with
    | some msg =>
      unfold createOrder at hok
      rw [hval] at hok
      cases hok
    | none =>
      rw [createOrder_ok ids r order hval hok, totalAmount_foldl]
      simp
  · rw [createOrder_sample_eq]
    rfl

/-- Witness for C5's theorem: the sample request is non-empty with
positive quantities and prices, and the returned order's total is the
claimed sum. -/
theorem createOrder_totalAmount_witness :
    ¬ sampleRequest.items = [] ∧
    (∀ i ∈ sampleRequest.items, 0 < i.quantity ∧ 0 < i.unitPrice) ∧
    (createOrder sampleIds sampleRequest).1 = .ok sampleOrder ∧
    sampleOrder.totalAmount
      = (sampleRequest.items.map (fun i => i.quantity * i.unitPrice)).sum :=
  ⟨by decide,
    by
      intro i hi
      simp only [sampleRequest, List.mem_cons, List.not_mem_nil, or_false] at hi
      rcases hi with rfl | rfl <;> constructor <;> norm_num,
    createOrder_sample_eq,
    createOrder_totalAmount.1 sampleIds sampleRequest sampleOrder (by decide)
      (by
        intro i hi
        simp only [sampleRequest, List.mem_cons, List.not_mem_nil, or_false] at hi
        rcases hi with rfl | rfl <;> constructor <;> norm_num)
      createOrder_sample_eq⟩

/-! ## Claim C7 — validation before side effects -/

/-- The per-item validation loop accepts exactly the lists whose items all
have positive quantity and price. -/
theorem validateItems_none_iff (l : List OrderItem) :
    validateItems l = none ↔ ∀ i ∈ l, 0 < i.quantity ∧ 0 < i.unitPrice := by
  induction l with
  | nil => simp [validateItems]
  | cons i t ih =>
    unfold validateItems
    by_cases hq : i.quantity ≤ 0
    · simp only [if_pos hq]
      constructor
      · intro h; cases h
      · intro h
        exact absurd (h i (List.mem_cons_self i t)).1 (not_lt.mpr hq)
    · by_cases hp : i.unitPrice ≤ 0
      · simp only [if_neg hq, if_pos hp]
        constructor
        · intro h; cases h
        · intro h
          exact absurd (h i (List.mem_cons_self i t)).2 (not_lt.mpr hp)
      · simp only [if_neg hq, if_neg hp]
        rw [ih]
        constructor
        · intro h j hj
          rcases List.mem_cons.mp hj with hj | hj
          · rw [hj]
            exact ⟨not_le.mp hq, not_le.mp hp⟩
          · exact h j hj
        · intro h j hj
          exact h j (List.mem_cons_of_mem i hj)

/-- A request accepted by `validateOrder` satisfies every spec-level
validation condition. -/
theorem validateOrder_none_implies (r : CreateOrderRequest)
    (h : validateOrder r = none) : validConditions r := by
  unfold validateOrder at h
  split at h
  · cases h
  · rename_i h1
    split at h
    · cases h
    · rename_i h2
      push_neg at h2
      split at h
      · cases h
      · rename_i h3
        split at h
        · cases h
        · rename_i hvi
          split at h
          · cases h
          · rename_i h5
            push_neg at h5
            exact ⟨h1, by simpa using h2.2, h3,
              (validateItems_none_iff r.items).mp hvi, h5.1, h5.2⟩

/-- C7: `createOrder` validates before performing any side effect — for
every request violating at least one validation condition, it throws a
validation error and sends no message to any queue. -/
theorem createOrder_validation (ids : MintedIds) (r : CreateOrderRequest)
    (h : ¬ validConditions r) :
    (∃ msg, (createOrder ids r).1 = .error msg) ∧ (createOrder ids r).2 = [] := by
  cases hval : validateOrder r with
  | none => exact absurd (validateOrder_none_implies r hval) h
  | some msg =>
    constructor
    · refine ⟨msg, ?_⟩
      unfold createOrder
      rw [hval]
    · unfold createOrder
      rw [hval]

/-- Witness for C7's theorem: the invalid sample request is rejected and no
message is emitted. -/
theorem createOrder_validation_witness :
    ¬ validConditions invalidRequest ∧
    (∃ msg, (createOrder sampleIds invalidRequest).1 = .error msg) ∧
    (createOrder sampleIds invalidRequest).2 = [] :=
  ⟨by decide, createOrder_validation sampleIds invalidRequest (by decide)⟩

/-! ## Claim C8 — payment success emissions -/

/-- Appending a fresh key to an association list makes it the found
entry. -/
theorem find_append_self {α : Type} (l : List (String × α)) (k : String)
    (v : α) (h : l.any (fun p => p.1 = k) = false) :
    (l ++ [(k, v)]).find? (fun p => p.1 = k) = some (k, v) := by
  induction l with
  | nil => simp
  | cons a t ih =>
    simp only [List.any_cons, Bool.or_eq_false_iff] at h
    simp only [List.cons_append]
    rw [List.find?_cons_of_neg]
    · exact ih h.2
    · simpa using h.1

/-- C8, counterexample: the sample order has a non-empty item list, but the
`INVENTORY_RESERVE_REQUESTED` event the payment stage emits on its
successful payment carries an **empty** item list (`items: []` in the
source) — not one populated from the order's items. -/
theorem payment_items_cex :
    (createOrder sampleIds sampleRequest).1 = .ok sampleOrder ∧
    ¬ sampleOrder.items = [] ∧
    (paymentProcessMessage ⟨[]⟩ samplePaymentEvent
        (runtimeCorrelationId samplePaymentEvent.correlationId)
        (.success "TXN-1")).2
      = [ ⟨"inventory", "INVENTORY_RESERVE_REQUESTED", "corr-1",
            .inventoryReserve "ORD-1" []⟩,
          ⟨"notifications", "NOTIFICATION_REQUESTED", "corr-1",
            .notification "ORD-1" "CUST-1" "" "payment_received"⟩ ] :=
  ⟨createOrder_sample_eq, by decide, by decide⟩

/-- C8 (amended): on a successful non-duplicate payment the stage records
the transaction id under the order id and emits exactly two messages — one
inventory-reservation request whose item list is empty (the order's items
are not propagated) and one payment-received notification — both carrying
the incoming event's `correlationId` unchanged. -/
theorem payment_success_emissions (st : PaymentState)
    (ev : PaymentRequestEvent) (txn : String)
    (hdup : st.processedPayments.any (fun p => p.1 = ev.orderId) = false)
    (hcorr : ¬ ev.correlationId = "") :
    paymentLookup
        (paymentProcessMessage st ev (runtimeCorrelationId ev.correlationId)
          (.success txn)).1 ev.orderId = some txn ∧
    (paymentProcessMessage st ev (runtimeCorrelationId ev.correlationId)
        (.success txn)).2
      = [ ⟨"inventory", "INVENTORY_RESERVE_REQUESTED", ev.correlationId,
            .inventoryReserve ev.orderId []⟩,
          ⟨"notifications", "NOTIFICATION_REQUESTED", ev.correlationId,
            .notification ev.orderId ev.customerId "" "payment_received"⟩ ] := by
  have hrc : runtimeCorrelationId ev.correlationId = ev.correlationId := by
    simp [runtimeCorrelationId, hcorr]
  constructor
  · simp only [paymentProcessMessage, hdup, Bool.false_eq_true, if_false]
    unfold paymentLookup paymentSet
    rw [if_neg (by simp [hdup])]
    rw [find_append_self st.processedPayments ev.orderId txn hdup]
    rfl
  · simp only [paymentProcessMessage, hdup, Bool.false_eq_true, if_false, hrc]

/-- Witness for C8's theorem: a fresh payment state processing the sample
payment event. -/
theorem payment_success_emissions_witness :
    (⟨[]⟩ : PaymentState).processedPayments.any
        (fun p => p.1 = samplePaymentEvent.orderId) = false ∧
    ¬ samplePaymentEvent.correlationId = "" ∧
    (paymentLookup
        (paymentProcessMessage ⟨[]⟩ samplePaymentEvent
          (runtimeCorrelationId samplePaymentEvent.correlationId)
          (.success "TXN-1")).1 samplePaymentEvent.orderId = some "TXN-1" ∧
      (paymentProcessMessage ⟨[]⟩ samplePaymentEvent
          (runtimeCorrelationId samplePaymentEvent.correlationId)
          (.success "TXN-1")).2
        = [ ⟨"inventory", "INVENTORY_RESERVE_REQUESTED",
              samplePaymentEvent.correlationId,
              .inventoryReserve samplePaymentEvent.orderId []⟩,
            ⟨"notifications", "NOTIFICATION_REQUESTED",
              samplePaymentEvent.correlationId,
              .notification samplePaymentEvent.orderId
                samplePaymentEvent.customerId "" "payment_received"⟩ ]) :=
  ⟨by decide, by decide,
    payment_success_emissions ⟨[]⟩ samplePaymentEvent "TXN-1" (by decide)
      (by decide)⟩

/-! ## Claim C6 — notification rate limiting -/

/-- Replacing an existing key in the rate-limit map makes it the found
entry. -/
theorem find_map_replace (m : List (String × RLRecord)) (c : String)
    (r : RLRecord) (h : m.any (fun p => p.1 = c) = true) :
    (m.map (fun p => if p.1 = c then (c, r) else p)).find?
        (fun p => p.1 = c) = some (c, r) := by
  induction m with
  | nil => cases h
  | cons a t ih =>
    by_cases ha : a.1 = c
    · simp only [List.map_cons, if_pos ha]
      rw [List.find?_cons_of_pos]
      simp
    · simp only [List.any_cons, Bool.or_eq_true] at h
      rcases h with h | h
      · exact absurd (of_decide_eq_true h) ha
      · simp only [List.map_cons, if_neg ha]
        rw [List.find?_cons_of_neg]
        · exact ih h
        · simpa using ha

/-- `Map.set` followed by a lookup of the same key returns the new
record. -/
theorem rlLookup_rlSet (m : List (String × RLRecord)) (c : String)
    (r : RLRecord) : rlLookup (rlSet m c r) c = some r := by
  unfold rlSet rlLookup
  by_cases h : m.any (fun p => p.1 = c) = true
  · rw [if_pos h, find_map_replace m c r h]
    rfl
  · rw [if_neg h, find_append_self m c r (Bool.eq_false_iff.mpr h)]
    rfl

/-- Deleting a key removes it from lookups. -/
theorem rlLookup_rlDelete (m : List (String × RLRecord)) (c : String) :
    rlLookup (rlDelete m c) c = none := by
  unfold rlLookup rlDelete
  have h : (m.filter (fun p => ¬ p.1 = c)).find? (fun p => p.1 = c) = none := by
    rw [List.find?_eq_none]
    intro p hp
    have := List.of_mem_filter hp
    simpa using this
  rw [h]
  rfl

/-- C6: per customer the rate limiter admits notifications 1–10 inside a
rolling hour, silently drops the 11th in the same window (no send, no
error, state untouched), and admits again once the window has elapsed,
restarting the counter at 1. Stated as the concrete 12-delivery scenario
plus the step characterization on arbitrary states: (i) no live record —
admitted, window of one hour opened at count 1; (ii) live record below the
limit — admitted, count incremented; (iii) live record at the limit —
dropped, state unchanged; (iv) expired record — admitted, counter reset to
1 with a fresh window. -/
theorem notification_rate_limit :
    ((notifRun ⟨[], []⟩ rateLimitScenario).2
      = List.replicate 10 NotifStatus.sent
        ++ [NotifStatus.rate_limited, NotifStatus.sent]) ∧
    (∀ (st : NotifState) (now : Nat) (p : NotifPayload),
      notifAdmissible st p →
      rlLookup st.rateLimit p.customerId = none →
      (notifProcessMessage st now p).1 = .sent ∧
      rlLookup (notifProcessMessage st now p).2.rateLimit p.customerId
        = some ⟨1, now + HOUR_MS⟩) ∧
    (∀ (st : NotifState) (now : Nat) (p : NotifPayload) (k reset : Nat),
      notifAdmissible st p →
      rlLookup st.rateLimit p.customerId = some ⟨k, reset⟩ →
      now ≤ reset → k < MAX_NOTIFICATIONS_PER_HOUR →
      (notifProcessMessage st now p).1 = .sent ∧
      rlLookup (notifProcessMessage st now p).2.rateLimit p.customerId
        = some ⟨k + 1, reset⟩) ∧
    (∀ (st : NotifState) (now : Nat) (p : NotifPayload) (k reset : Nat),
      rlLookup st.rateLimit p.customerId = some ⟨k, reset⟩ →
      now ≤ reset → MAX_NOTIFICATIONS_PER_HOUR ≤ k →
      (notifProcessMessage st now p).1 = .rate_limited ∧
      (notifProcessMessage st now p).2 = st) ∧
    (∀ (st : NotifState) (now : Nat) (p : NotifPayload) (k reset : Nat),
      notifAdmissible st p →
      rlLookup st.rateLimit p.customerId = some ⟨k, reset⟩ →
      reset < now →
      (notifProcessMessage st now p).1 = .sent ∧
      rlLookup (notifProcessMessage st now p).2.rateLimit p.customerId
        = some ⟨1, now + HOUR_MS⟩) := by
  refine ⟨by decide, ?_, ?_, ?_, ?_⟩
  · intro st now p hadm hlk
    simp only [notifProcessMessage, checkRateLimit, hlk, Bool.not_true,
      Bool.false_eq_true, if_false, hadm.1, hadm.2, not_true, if_neg,
      incrementRateLimit]
    simp [hadm.1, hadm.2, incrementRateLimit, hlk, rlLookup_rlSet]
  · intro st now p k reset hadm hlk hnow hk
    have hexp : ¬ reset < now := not_lt.mpr hnow
    have hlt : decide (k < MAX_NOTIFICATIONS_PER_HOUR) = true := by
      simpa using hk
    simp only [notifProcessMessage, checkRateLimit, hlk, if_neg hexp, hlt,
      Bool.not_true, Bool.false_eq_true, if_false]
    simp [hadm.1, hadm.2, incrementRateLimit, hlk, if_neg hexp, rlLookup_rlSet]
  · intro st now p k reset hlk hnow hk
    have hexp : ¬ reset < now := not_lt.mpr hnow
    have hlt : decide (k < MAX_NOTIFICATIONS_PER_HOUR) = false := by
      simpa using hk
    simp [notifProcessMessage, checkRateLimit, hlk, if_neg hexp, hlt]
  · intro st now p k reset hadm hlk hexp
    have hchk : checkRateLimit st.rateLimit now p.customerId
        = (true, rlDelete st.rateLimit p.customerId) := by
      simp [checkRateLimit, hlk, hexp]
    constructor
    · simp [notifProcessMessage, hchk, hadm.1, hadm.2]
    · simp [notifProcessMessage, hchk, hadm.1, hadm.2, incrementRateLimit,
        rlLookup_rlDelete, rlLookup_rlSet]

/-- Witness for C6's theorem: a customer with 3 prior sends in a live
window gets a 4th notification admitted with the counter moving to 4. -/
theorem notification_rate_limit_witness :
    notifAdmissible ⟨[], [("CUST-9", ⟨3, 5000⟩)]⟩
        ⟨"ORD-5", "CUST-9", "", "payment_received"⟩ ∧
    rlLookup ([("CUST-9", ⟨3, 5000⟩)] : List (String × RLRecord)) "CUST-9"
      = some ⟨3, 5000⟩ ∧
    (4000 : Nat) ≤ 5000 ∧
    3 < MAX_NOTIFICATIONS_PER_HOUR ∧
    ((notifProcessMessage ⟨[], [("CUST-9", ⟨3, 5000⟩)]⟩ 4000
        ⟨"ORD-5", "CUST-9", "", "payment_received"⟩).1 = .sent ∧
      rlLookup (notifProcessMessage ⟨[], [("CUST-9", ⟨3, 5000⟩)]⟩ 4000
          ⟨"ORD-5", "CUST-9", "", "payment_received"⟩).2.rateLimit "CUST-9"
        = some ⟨4, 5000⟩) :=
  ⟨by decide, by decide, by decide, by decide,
    notification_rate_limit.2.2.1 ⟨[], [("CUST-9", ⟨3, 5000⟩)]⟩ 4000
      ⟨"ORD-5", "CUST-9", "", "payment_received"⟩ 3 5000
      (by decide) (by decide) (by decide) (by decide)⟩

/-! ## Claim C9 — DLQ failure summary -/

/-- `find?` by key commutes with a key-preserving map. -/
theorem find?_map_keyPreserving {β : Type} (f : (String × β) → (String × β))
    (hf : ∀ p, (f p).1 = p.1) (m : List (String × β)) (k : String) :
    (m.map f).find? (fun p => p.1 = k) = (m.find? (fun p => p.1 = k)).map f := by
  induction m with
  | nil => rfl
  | cons a t ih =>
    by_cases ha : a.1 = k
    · rw [List.map_cons, List.find?_cons_of_pos _ (by simp [hf, ha]),
        List.find?_cons_of_pos _ (by simp [ha])]
      rfl
    · rw [List.map_cons, List.find?_cons_of_neg _ (by simp [hf, ha]),
        List.find?_cons_of_neg _ (by simp [ha]), ih]

/-- Bumping a key increments exactly its own count. -/
theorem countLookup_bumpCount_self (m : List (String × Nat)) (k : String) :
    countLookup (bumpCount m k) k = countLookup m k + 1 := by
  cases hany : m.any (fun p => p.1 = k) with
  | false =>
    have hnone : m.find? (fun p => p.1 = k) = none := by
      rw [List.find?_eq_none]
      intro p hp hc
      rw [Bool.eq_false_iff] at hany
      exact hany (List.any_eq_true.mpr ⟨p, hp, hc⟩)
    unfold bumpCount countLookup
    rw [if_neg (by simp [hany]), List.find?_append, hnone]
    simp
  | true =>
    have hsome : (m.find? (fun p => p.1 = k)).isSome := by
      rw [List.find?_isSome]
      exact List.any_eq_true.mp hany
    obtain ⟨q, hq⟩ := Option.isSome_iff_exists.mp hsome
    have hqk : q.1 = k := by simpa using List.find?_some hq
    unfold bumpCount countLookup
    rw [if_pos (by simp [hany]),
      find?_map_keyPreserving _ (fun p => by by_cases h : p.1 = k <;> simp [h]),
      hq]
    simp [hqk]

/-- Bumping one key leaves every other key's count unchanged. -/
theorem countLookup_bumpCount_ne (m : List (String × Nat)) (j k : String)
    (h : ¬ j = k) : countLookup (bumpCount m j) k = countLookup m k := by
  cases hany : m.any (fun p => p.1 = j) with
  | false =>
    unfold bumpCount countLookup
    rw [if_neg (by simp [hany]), List.find?_append,
      List.find?_cons_of_neg _ (by simpa using fun hc => h hc), List.find?_nil,
      Option.or_none]
  | true =>
    unfold bumpCount countLookup
    rw [if_pos (by simp [hany]),
      find?_map_keyPreserving _ (fun p => by by_cases hc : p.1 = j <;> simp [hc])]
    cases hfind : m.find? (fun p => p.1 = k) with
    | none => rfl
    | some q =>
      have hqk : q.1 = k := by simpa using List.find?_some hfind
      have : ¬ q.1 = j := fun hc => h (hc ▸ hqk.symm ▸ rfl)
      simp [this]

/-- The second component of the summary fold is the event-type fold. -/
theorem summary_fold_snd (parse : String → Option ParsedEnvelope)
    (msgs : List FailedMessage) (a b : List (String × Nat)) :
    (msgs.foldl
        (fun (acc : List (String × Nat) × List (String × Nat)) msg =>
          (bumpCount acc.1 msg.queueName,
           bumpCount acc.2 (classifyBody parse msg.body))) (a, b)).2
      = msgs.foldl (fun acc msg => bumpCount acc (classifyBody parse msg.body)) b := by
  induction msgs generalizing a b with
  | nil => rfl
  | cons msg t ih => exact ih _ _

/-- Counting a key after folding `bumpCount` over classified messages. -/
theorem countLookup_foldl_bump (parse : String → Option ParsedEnvelope)
    (msgs : List FailedMessage) (m0 : List (String × Nat)) (k : String) :
    countLookup (msgs.foldl
        (fun acc msg => bumpCount acc (classifyBody parse msg.body)) m0) k
      = countLookup m0 k
        + msgs.countP (fun msg => classifyBody parse msg.body == k) := by
  induction msgs generalizing m0 with
  | nil => simp
  | cons msg t ih =>
    simp only [List.foldl_cons, List.countP_cons, ih]
    by_cases hc : classifyBody parse msg.body = k
    · rw [hc, countLookup_bumpCount_self]
      simp [hc]
      omega
    · rw [countLookup_bumpCount_ne m0 _ k hc]
      simp [hc]

/-- C9: in the DLQ failure summary the total equals the number of recorded
failed messages, the per-event-type counter for a key counts exactly the
messages classified to it, a message whose body does not parse as JSON is
classified `INVALID`, and `handleFailedMessage` keeps every record
(appends it regardless of parseability, deleting nothing). -/
theorem dlq_summary_invalid (parse : String → Option ParsedEnvelope)
    (msgs : List FailedMessage) :
    (getFailureSummary parse msgs).total = msgs.length ∧
    countLookup (getFailureSummary parse msgs).byEventType "INVALID"
      = msgs.countP (fun m => classifyBody parse m.body == "INVALID") ∧
    (∀ body, parse body = none → classifyBody parse body = "INVALID") ∧
    (∀ (recorded : List FailedMessage) (msg : FailedMessage),
      handleFailedMessage recorded msg = recorded ++ [msg]) := by
  refine ⟨rfl, ?_, fun body hb => by simp [classifyBody, hb], fun _ _ => rfl⟩
  show countLookup
      (msgs.foldl
        (fun (acc : List (String × Nat) × List (String × Nat)) msg =>
          (bumpCount acc.1 msg.queueName,
           bumpCount acc.2 (classifyBody parse msg.body)))
        ([], [])).2 "INVALID" = _
  rw [summary_fold_snd, countLookup_foldl_bump]
  simp [countLookup]

/-- Witness for C9's theorem: with the sample parse function, the garbage
body fails to parse and is classified `INVALID`; the summary over the two
recorded messages has total 2. -/
theorem dlq_summary_invalid_witness :
    sampleParse "garbage" = none ∧
    classifyBody sampleParse "garbage" = "INVALID" ∧
    (getFailureSummary sampleParse sampleFailedMessages).total
      = sampleFailedMessages.length :=
  ⟨by decide,
    (dlq_summary_invalid sampleParse sampleFailedMessages).2.2.1 "garbage"
      (by decide),
    (dlq_summary_invalid sampleParse sampleFailedMessages).1⟩

end EcommerceSqs

